import Mathlib

/-!
Verification of the tgzr.package_management plugin-resolution engine.

Shallow embedding of `src/tgzr/package_management/plugin_manager.py`.

Modelling conventions:

* Python class membership (`isinstance` / `issubclass` against the managed
  plugin type and capability subtypes) is modelled by a list of capability
  names carried by each plugin instance / plugin class, with the engine's
  managed type `T` being one such name.
* Entry points (`importlib_metadata.EntryPoint`) are records with a name.
  `ep.load()` and zero-argument invocation of callables are supplied by an
  environment (`EPSource`), since they are external effects.
* Zero-argument callables are modelled as indices into the environment's
  call table, so self-referential chains (`def f(): return f`) are
  representable.
* Python exceptions become `Except` errors.  The interpreter's fixed
  recursion limit is modelled by a fuel parameter `recLimit`; exhausting it
  is `RecursionError`.
* A Python class object that is a `Plugin` subclass is `Value.cls`; since
  `Plugin.__init__` requires the entry-point argument, invoking such a class
  with zero arguments raises `TypeError`.  A class that is not a `Plugin`
  subclass behaves, in `_resolve_plugins`, exactly like any other callable
  (the `issubclass` test fails and the `callable` branch invokes it), so it
  is represented as `Value.callable`.
-/

namespace PM

/-- Model of `importlib_metadata.EntryPoint`: a named, lazily-loadable descriptor. -/
structure EntryPoint where
  name : String
deriving DecidableEq, Repr

/-- A constructed plugin instance.  `name` is `plugin_name()`, `typeName` is
`plugin_type_name()`, `ep` the originating entry point stored by
`Plugin.__init__`, and `caps` the set of capability names (class ancestry)
the instance satisfies for `isinstance` checks. -/
structure Plugin where
  name : String
  typeName : String
  ep : EntryPoint
  caps : List String
deriving DecidableEq, Repr

/-- A Python class object that subclasses `Plugin`: `clsName` is the class's
`plugin_name()` (a classmethod, so callable on the class itself), `caps` its
ancestry for `issubclass` checks. -/
structure PluginClass where
  clsName : String
  typeName : String
  caps : List String
deriving DecidableEq, Repr

/-- Exceptions that can be raised while loading / resolving a descriptor. -/
inductive LoadErr where
  /-- Python `RecursionError`: the interpreter's recursion limit was hit
  during chained-invocable resolution. -/
  | recursionError
  /-- Python `TypeError`, e.g. a `Plugin` subclass invoked without its
  required entry-point argument. -/
  | typeError
  /-- The `ValueError` raised by `_resolve_plugins` when invoking a callable
  entry-point value raised `inner` (message embeds the entry point name). -/
  | callableRaised (epName : String) (inner : LoadErr)
  /-- The `ValueError` raised by `_resolve_plugins` for a value that is not
  an instance, type, collection or callable (message embeds `EP_GROUP`). -/
  | invalidValue (group : String)
  /-- An arbitrary exception raised by `ep.load()` or by a callable body. -/
  | custom (msg : String)
deriving DecidableEq, Repr

/-- A Python runtime value, as classified by `_resolve_plugins`. -/
inductive Value where
  /-- An instance of some `Plugin` family. -/
  | inst (p : Plugin)
  /-- A class object subclassing `Plugin`. -/
  | cls (c : PluginClass)
  /-- Any other callable (function, lambda, non-`Plugin` class), identified
  by its index into the environment's call table. -/
  | callable (i : Nat)
  /-- A `tuple` / `list` / `set` of values. -/
  | coll (elems : List Value)
  /-- Anything else (a bare number, a string, ...). -/
  | other

/-- Python `isinstance(v, C)` for a capability (Plugin-subclass) `C`: only plugin
instances can satisfy it. -/
def Value.isinstanceOf (cap : String) : Value → Bool
  | .inst p => p.caps.contains cap
  | _ => false

/-- Manager configuration: `EP_GROUP` and the managed capability contract
`T` returned by `managed_plugin_type()`. -/
structure ManagerCfg where
  group : String
  managedType : String
deriving DecidableEq, Repr

/-- The external world of one load pass: the descriptors
`importlib_metadata.entry_points(group=...)` returns, what each `ep.load()`
yields, and what invoking callable `i` with zero arguments yields. -/
structure EPSource where
  eps : List EntryPoint
  load : EntryPoint → Except LoadErr Value
  call : Nat → Except LoadErr Value

/-- Model of `PluginManager._instantiate_plugin_type`: `PluginType(entry_point)` —
builds the instance from the class, storing the entry point. -/
def instantiatePluginType (c : PluginClass) (ep : EntryPoint) : Plugin :=
  { name := c.clsName, typeName := c.typeName, ep := ep, caps := c.caps }

/-- Model of `PluginManager._resolve_plugins`.  The branches, in source order:
1. `isinstance(loaded, ManagedPluginType)` → `[loaded]`;
2. `inspect.isclass(loaded) and issubclass(loaded, ManagedPluginType)` →
   `[self._instantiate_plugin_type(loaded, entry_point)]`;
3. `callable(loaded)` → invoke it (a raise is wrapped in `ValueError`),
   then recurse on the result;
4. `isinstance(loaded, (tuple, list, set))` → its elements, verbatim;
5. otherwise → `ValueError` naming `EP_GROUP`.
The fuel models Python's interpreter recursion limit: the code has no
explicit depth bound, so a chain of invocables is only stopped by
`RecursionError`. -/
def resolvePlugins (cfg : ManagerCfg) (env : Nat → Except LoadErr Value) :
    Nat → Value → EntryPoint → Except LoadErr (List Value)
  | 0, _, _ => .error .recursionError
  | _ + 1, .inst p, _ =>
      if p.caps.contains cfg.managedType then .ok [.inst p]
      else .error (.invalidValue cfg.group)
  | _ + 1, .cls c, ep =>
      if c.caps.contains cfg.managedType then
        .ok [.inst (instantiatePluginType c ep)]
      else
        -- branch 3: a class is callable; `Plugin.__init__` requires the
        -- entry point, so a zero-argument call raises `TypeError`, which
        -- branch 3 wraps in its `ValueError`.
        .error (.callableRaised ep.name .typeError)
  | fuel + 1, .callable i, ep =>
      match env i with
      | .error e => .error (.callableRaised ep.name e)
      | .ok v => resolvePlugins cfg env fuel v ep
  | _ + 1, .coll es, _ => .ok es
  | _ + 1, .other, _ => .error (.invalidValue cfg.group)

/-- Mutable state of a `PluginManager`: `_broken`, `_loaded`,
`_needs_loading`. -/
structure PMState where
  broken : List (EntryPoint × LoadErr)
  loaded : List Value
  needsLoading : Bool

/-- The state `PluginManager.__init__` sets up. -/
def initState : PMState := { broken := [], loaded := [], needsLoading := true }

/-- The per-descriptor loop of `_load_plugins`, with the cleared `_broken`
and `_loaded` lists as accumulators.  The source currently contains
`raise  # TMP DEE` before each `self._broken.append((ep, err))`, so both
failure branches re-raise and the appends are dead code: a failing
descriptor aborts the whole pass. -/
def loadLoop (cfg : ManagerCfg) (src : EPSource) (recLimit : Nat) :
    List EntryPoint → List (EntryPoint × LoadErr) → List Value →
    Except LoadErr PMState
  | [], broken, acc => .ok { broken := broken, loaded := acc, needsLoading := false }
  | ep :: rest, broken, acc =>
      match src.load ep with
      | .error err => .error err
      | .ok loaded =>
        match resolvePlugins cfg src.call recLimit loaded ep with
        | .error err => .error err
        | .ok plugins => loadLoop cfg src recLimit rest broken (acc ++ plugins)

/-- Model of `PluginManager._load_plugins`: clears both lists, iterates the entry
points of the group, sets `_needs_loading = False` on completion. -/
def loadPlugins (cfg : ManagerCfg) (src : EPSource) (recLimit : Nat) :
    Except LoadErr PMState :=
  loadLoop cfg src recLimit src.eps [] []

/-- Model of `PluginManager.get_plugins(force_reload)`: triggers `_load_plugins` if
forced or `_needs_loading`, returns `_loaded`. -/
def getPlugins (cfg : ManagerCfg) (src : EPSource) (recLimit : Nat)
    (st : PMState) (forceReload : Bool) : Except LoadErr (PMState × List Value) :=
  if forceReload || st.needsLoading then
    match loadPlugins cfg src recLimit with
    | .error e => .error e
    | .ok st2 => .ok (st2, st2.loaded)
  else .ok (st, st.loaded)

/-- Model of `PluginManager.get_broken_plugins(force_reload)`. -/
def getBrokenPlugins (cfg : ManagerCfg) (src : EPSource) (recLimit : Nat)
    (st : PMState) (forceReload : Bool) :
    Except LoadErr (PMState × List (EntryPoint × LoadErr)) :=
  if forceReload || st.needsLoading then
    match loadPlugins cfg src recLimit with
    | .error e => .error e
    | .ok st2 => .ok (st2, st2.broken)
  else .ok (st, st.broken)

/-- Python `v.plugin_name()`: defined for plugin instances and for plugin classes
(`plugin_name` is a classmethod); any other value raises `AttributeError`
(`none`). -/
def Value.pluginName : Value → Option String
  | .inst p => some p.name
  | .cls c => some c.clsName
  | _ => none

/-- The scan loop of `get_plugin`: walk the cached list, return the first
value whose `plugin_name()` equals the wanted name; `Except Unit` signals an
`AttributeError` on a cached value with no `plugin_name`. -/
def scanPlugins (name : String) : List Value → Except Unit (Option Value)
  | [] => .ok none
  | v :: rest =>
      match v.pluginName with
      | none => .error ()
      | some n => if n = name then .ok (some v) else scanPlugins name rest

/-- The list `[p.plugin_name() for p in self.get_plugins()]`, as rendered into the
diagnostic message of the not-found errors. -/
def pluginNames : List Value → Except Unit (List String)
  | [] => .ok []
  | v :: rest =>
      match v.pluginName with
      | none => .error ()
      | some n =>
        match pluginNames rest with
        | .error e => .error e
        | .ok ns => .ok (n :: ns)

/-- Errors surfaced by the query API. -/
inductive Err where
  /-- An exception propagated out of a triggered `_load_plugins` pass. -/
  | load (e : LoadErr)
  /-- Python `AttributeError`: a cached value has no `plugin_name`. -/
  | attrErr
  /-- The diagnostic `ValueError` of `get_plugin` / `find_plugins`, whose
  message embeds every known plugin name and the broken list. -/
  | notFound (known : List String) (broken : List (EntryPoint × LoadErr))
deriving DecidableEq, Repr

/-- Model of `PluginManager.get_plugin(plugin_name)`: linear scan of `get_plugins()`
for an exact `plugin_name()` match; raises the diagnostic not-found error
otherwise. -/
def getPlugin (cfg : ManagerCfg) (src : EPSource) (recLimit : Nat)
    (st : PMState) (name : String) : Except Err (PMState × Value) :=
  match getPlugins cfg src recLimit st false with
  | .error e => .error (.load e)
  | .ok (st2, plugins) =>
    match scanPlugins name plugins with
    | .error _ => .error .attrErr
    | .ok (some v) => .ok (st2, v)
    | .ok none =>
      match pluginNames plugins with
      | .error _ => .error .attrErr
      | .ok names => .error (.notFound names st2.broken)

/-- Model of `PluginManager.find_plugins(PluginType, raise_not_found=True)`: filters
`get_plugins()` by `isinstance(plugin, PluginType)`.  NOTE: the source never
reads `raise_not_found` — an empty filter result always raises. -/
def findPlugins (cfg : ManagerCfg) (src : EPSource) (recLimit : Nat)
    (st : PMState) (cap : String) (raiseNotFound : Bool) :
    Except Err (PMState × List Value) :=
  let _ := raiseNotFound
  match getPlugins cfg src recLimit st false with
  | .error e => .error (.load e)
  | .ok (st2, plugins) =>
    let found := plugins.filter (Value.isinstanceOf cap)
    if found.isEmpty then
      match pluginNames plugins with
      | .error _ => .error .attrErr
      | .ok names => .error (.notFound names st2.broken)
    else .ok (st2, found)

/-- Model of `PluginManagerRegistry._PLUGIN_MANAGERS`, with managers identified by
Python object identity (a `Nat` id). -/
structure Registry where
  managers : Finset Nat
deriving DecidableEq

/-- Model of `PluginManagerRegistry.register`: `set.add`. -/
def Registry.register (reg : Registry) (m : Nat) : Registry :=
  ⟨insert m reg.managers⟩

/-- Model of `PluginManagerRegistry.get_plugin_managers`: `set.copy()` — under value
semantics the snapshot is the current membership. -/
def Registry.getPluginManagers (reg : Registry) : Finset Nat :=
  reg.managers

/-- Model of `PluginManager.__init__`: registers the new engine and initializes its
state; no load pass happens at construction. -/
def pmInit (reg : Registry) (mId : Nat) : Registry × PMState :=
  (reg.register mId, initState)

end PM

namespace PM

/-! Concrete fixtures used by witnesses and counterexamples. -/

/-- A first entry point, named "a". -/
def epA : EntryPoint := { name := "a" }

/-- A second entry point, named "b". -/
def epB : EntryPoint := { name := "b" }

/-- A manager for group "grp" whose managed plugin type is the capability
"T". -/
def cfg0 : ManagerCfg := { group := "grp", managedType := "T" }

/-- A plugin instance named "a" satisfying capability "T". -/
def pA : Plugin := { name := "a", typeName := "T", ep := epA, caps := ["T"] }

/-- A second plugin instance also named "a" (same `plugin_name()` as `pA`,
different family), satisfying "T". -/
def pA2 : Plugin := { name := "a", typeName := "T2", ep := epA, caps := ["T"] }

/-- A plugin instance named "b" satisfying capability "T". -/
def pB : Plugin := { name := "b", typeName := "T", ep := epB, caps := ["T"] }

/-- A plugin class (subclass of the managed type) named "c". -/
def cT : PluginClass := { clsName := "c", typeName := "T", caps := ["T"] }

/-- Source where entry point "a" raises on `load()` and entry point "b"
loads a valid plugin instance. -/
def src1 : EPSource :=
  { eps := [epA, epB]
    load := fun ep =>
      if ep.name = "a" then .error (.custom "boom") else .ok (.inst pB)
    call := fun _ => .ok .other }

/-- Source with one entry point whose value is a list containing a bare
non-plugin value. -/
def src2 : EPSource :=
  { eps := [epA]
    load := fun _ => .ok (.coll [.other])
    call := fun _ => .ok .other }

/-- Source with one entry point whose value is the zero-argument callable
`f` defined by `def f(): return f` — calling it returns itself, so the
invocable chain never ends. -/
def src3 : EPSource :=
  { eps := [epA]
    load := fun _ => .ok (.callable 0)
    call := fun _ => .ok (.callable 0) }

/-- Well-behaved source: a single entry point loading a valid instance. -/
def srcW : EPSource :=
  { eps := [epA]
    load := fun _ => .ok (.inst pA)
    call := fun _ => .ok (.inst pA) }

/-- Well-behaved source with two entry points each loading a distinct valid
instance. -/
def srcW5 : EPSource :=
  { eps := [epA, epB]
    load := fun ep => if ep.name = "a" then .ok (.inst pA) else .ok (.inst pB)
    call := fun _ => .ok .other }

/-- A loaded manager state caching exactly the plugin `pA`. -/
def st4 : PMState := { broken := [], loaded := [.inst pA], needsLoading := false }

/-- A loaded manager state caching `pA` and holding one broken pair. -/
def st7 : PMState :=
  { broken := [(epB, .custom "x")], loaded := [.inst pA], needsLoading := false }

/-- A loaded manager state whose cache holds `pB` and then two distinct
plugins that share the `plugin_name()` "a". -/
def st10 : PMState :=
  { broken := [], loaded := [.inst pB, .inst pA, .inst pA2], needsLoading := false }

/-! Claim theorems. -/

/-- C1.  The claim says a load pass never raises and records failing
descriptors in the broken list.  The code instead re-raises
(`raise  # TMP DEE`, plugin_manager.py lines 153 and 158): with a source
whose first descriptor's `load()` raises and whose second descriptor is
perfectly valid, `_load_plugins` propagates the exception, the pass is
aborted (no state results, so the second descriptor is never resolved and
`get_plugins()` / `get_broken_plugins()` raise as well, recording
nothing). -/
theorem c1_load_pass_raises_instead_of_recording :
    loadPlugins cfg0 src1 10 = .error (.custom "boom") ∧
    getPlugins cfg0 src1 10 initState false = .error (.custom "boom") ∧
    getBrokenPlugins cfg0 src1 10 initState false = .error (.custom "boom") :=
  ⟨rfl, rfl, rfl⟩

/-- Helper: a self-returning zero-argument callable (`def f(): return f`)
never resolves — every amount of fuel (any interpreter recursion limit) is
exhausted and `RecursionError` is raised. -/
theorem resolvePlugins_self_callable (cfg : ManagerCfg)
    (env : Nat → Except LoadErr Value) (i : Nat) (ep : EntryPoint)
    (h : env i = .ok (.callable i)) :
    ∀ fuel, resolvePlugins cfg env fuel (.callable i) ep = .error .recursionError := by
  intro fuel
  induction fuel with
  | zero => rfl
  | succ n ih => simp only [resolvePlugins, h]; exact ih

/-- C3.  The claim says resolution imposes a fixed recursion-depth limit on
chained invocables and, once exceeded, records a resolution error for the
descriptor.  The code has no depth bound at all: resolution of a
self-returning callable recurses until the interpreter's recursion limit
(the fuel) raises `RecursionError` — and for every possible limit the
`raise  # TMP DEE` override then propagates the error out of the whole load
pass instead of recording `(descriptor, error)` in the broken list. -/
theorem c3_invocable_chain_error_propagates :
    ∀ recLimit : Nat,
      resolvePlugins cfg0 src3.call recLimit (.callable 0) epA =
        .error .recursionError ∧
      loadPlugins cfg0 src3 recLimit = .error .recursionError := by
  intro recLimit
  have h := resolvePlugins_self_callable cfg0 src3.call 0 epA rfl recLimit
  refine ⟨h, ?_⟩
  simp only [loadPlugins, loadLoop, src3] at h ⊢
  rw [h]

/-- C4.  The claim says `find_plugins(C, raise_if_empty=false)` returns an
empty collection without raising when nothing matches.  The code's
`raise_not_found` parameter is never read: on a loaded manager caching one
plugin of type "T", filtering by the unmatched capability "C" raises the
diagnostic not-found error whether the flag is `false` or `true`. -/
theorem c4_raise_flag_is_ignored :
    findPlugins cfg0 srcW 10 st4 "C" false =
      .error (.notFound ["a"] []) ∧
    findPlugins cfg0 srcW 10 st4 "C" true =
      .error (.notFound ["a"] []) :=
  ⟨rfl, rfl⟩


/-- The per-descriptor results of one pass, concatenated in source
iteration order; the first exception (which, with the `raise  # TMP DEE`
override, aborts the pass) is propagated. -/
def resolveSeq (cfg : ManagerCfg) (src : EPSource) (recLimit : Nat) :
    List EntryPoint → Except LoadErr (List Value)
  | [] => .ok []
  | ep :: rest =>
    match src.load ep with
    | .error e => .error e
    | .ok v =>
      match resolvePlugins cfg src.call recLimit v ep with
      | .error e => .error e
      | .ok ps =>
        match resolveSeq cfg src recLimit rest with
        | .error e => .error e
        | .ok l => .ok (ps ++ l)

/-- Helper: the load loop is the concatenation of the per-descriptor
results appended to the accumulator. -/
theorem loadLoop_eq_resolveSeq (cfg : ManagerCfg) (src : EPSource)
    (recLimit : Nat) :
    ∀ eps broken acc,
      loadLoop cfg src recLimit eps broken acc =
        match resolveSeq cfg src recLimit eps with
        | .error e => .error e
        | .ok l => .ok { broken := broken, loaded := acc ++ l, needsLoading := false } := by
  intro eps
  induction eps with
  | nil => intro broken acc; simp [loadLoop, resolveSeq]
  | cons ep rest ih =>
    intro broken acc
    cases hl : src.load ep with
    | error e => simp [loadLoop, resolveSeq, hl]
    | ok v =>
      cases hr : resolvePlugins cfg src.call recLimit v ep with
      | error e => simp [loadLoop, resolveSeq, hl, hr]
      | ok ps =>
        simp only [loadLoop, resolveSeq, hl, hr]
        rw [ih broken (acc ++ ps)]
        cases hs : resolveSeq cfg src recLimit rest with
        | error e => rfl
        | ok l => simp [List.append_assoc]

/-- Helper: `_load_plugins` in terms of the per-descriptor results. -/
theorem loadPlugins_eq_resolveSeq (cfg : ManagerCfg) (src : EPSource)
    (recLimit : Nat) :
    loadPlugins cfg src recLimit =
      match resolveSeq cfg src recLimit src.eps with
      | .error e => .error e
      | .ok l => .ok { broken := [], loaded := l, needsLoading := false } := by
  rw [loadPlugins, loadLoop_eq_resolveSeq]
  cases resolveSeq cfg src recLimit src.eps with
  | error e => rfl
  | ok l => simp

/-- Helper: per-descriptor results compose over concatenation of the
descriptor list. -/
theorem resolveSeq_append (cfg : ManagerCfg) (src : EPSource)
    (recLimit : Nat) :
    ∀ l1 l2 a b, resolveSeq cfg src recLimit l1 = .ok a →
      resolveSeq cfg src recLimit l2 = .ok b →
      resolveSeq cfg src recLimit (l1 ++ l2) = .ok (a ++ b) := by
  intro l1
  induction l1 with
  | nil =>
    intro l2 a b h1 h2
    simp only [resolveSeq] at h1
    cases h1
    simpa using h2
  | cons ep rest ih =>
    intro l2 a b h1 h2
    cases hl : src.load ep with
    | error e => simp only [resolveSeq, hl] at h1; cases h1
    | ok v =>
      cases hr : resolvePlugins cfg src.call recLimit v ep with
      | error e => simp only [resolveSeq, hl, hr] at h1; cases h1
      | ok ps =>
        cases hs : resolveSeq cfg src recLimit rest with
        | error e => simp only [resolveSeq, hl, hr, hs] at h1; cases h1
        | ok l =>
          simp only [resolveSeq, hl, hr, hs] at h1
          cases h1
          rw [List.cons_append]
          simp only [resolveSeq, hl, hr]
          rw [ih l2 l b hs h2]
          simp [List.append_assoc]

/-- Helper: a value that already passes the capability check resolves to
the singleton holding exactly that value (branch 1). -/
theorem resolvePlugins_instance (cfg : ManagerCfg)
    (env : Nat → Except LoadErr Value) (fuel : Nat) (v : Value)
    (ep : EntryPoint) (hT : Value.isinstanceOf cfg.managedType v = true)
    (hf : 0 < fuel) :
    resolvePlugins cfg env fuel v ep = .ok [v] := by
  obtain ⟨n, rfl⟩ : ∃ n, fuel = n + 1 :=
    ⟨fuel - 1, (Nat.succ_pred_eq_of_pos hf).symm⟩
  cases v with
  | inst p =>
    have hmem : cfg.managedType ∈ p.caps := by
      simpa [Value.isinstanceOf] using hT
    simp [resolvePlugins, hmem]
  | cls c => simp [Value.isinstanceOf] at hT
  | callable i => simp [Value.isinstanceOf] at hT
  | coll es => simp [Value.isinstanceOf] at hT
  | other => simp [Value.isinstanceOf] at hT

/-- C5.  A descriptor whose `load()` yields a value `v` already satisfying
the capability check resolves to exactly `[v]`; when the pass completes,
the cached list is the earlier descriptors' results, then that very
instance, then the later descriptors' results — i.e. `v` sits at the
position given by descriptor enumeration order and (when no other
descriptor contributed it) occurs exactly once. -/
theorem c5_instance_value_kept_once_in_order
    (cfg : ManagerCfg) (src : EPSource) (recLimit : Nat)
    (pre post : List EntryPoint) (ep : EntryPoint) (v : Value)
    (st : PMState) (A B : List Value)
    (heps : src.eps = pre ++ ep :: post)
    (hv : src.load ep = .ok v)
    (hT : Value.isinstanceOf cfg.managedType v = true)
    (hf : 0 < recLimit)
    (hok : loadPlugins cfg src recLimit = .ok st)
    (hA : resolveSeq cfg src recLimit pre = .ok A)
    (hB : resolveSeq cfg src recLimit post = .ok B)
    (hvA : v ∉ A) (hvB : v ∉ B) :
    resolvePlugins cfg src.call recLimit v ep = .ok [v] ∧
    st.loaded = A ++ v :: B ∧ v ∉ A ∧ v ∉ B := by
  have hres := resolvePlugins_instance cfg src.call recLimit v ep hT hf
  have hmid : resolveSeq cfg src recLimit (ep :: post) = .ok (v :: B) := by
    simp only [resolveSeq, hv, hres, hB, List.singleton_append]
  have hall := resolveSeq_append cfg src recLimit pre (ep :: post) A (v :: B) hA hmid
  rw [loadPlugins_eq_resolveSeq, heps, hall] at hok
  cases hok
  exact ⟨hres, rfl, hvA, hvB⟩

/-- Witness for C5 at a concrete two-descriptor source: descriptor "b"
loads the instance `pB`, descriptor "a" before it loads `pA`; the cache is
`[pA, pB]` with `pB` exactly once, in order. -/
theorem c5_witness :
    resolvePlugins cfg0 srcW5.call 10 (.inst pB) epB = .ok [.inst pB] ∧
    ({ broken := [], loaded := [.inst pA, .inst pB], needsLoading := false } : PMState).loaded
      = [Value.inst pA] ++ Value.inst pB :: [] ∧
    Value.inst pB ∉ [Value.inst pA] ∧
    Value.inst pB ∉ ([] : List Value) :=
  c5_instance_value_kept_once_in_order cfg0 srcW5 10 [epA] [] epB (.inst pB)
    { broken := [], loaded := [.inst pA, .inst pB], needsLoading := false }
    [Value.inst pA] [] rfl rfl rfl (by decide) rfl rfl rfl
    (by
      intro h
      rw [List.mem_singleton] at h
      injection h with h2
      exact absurd h2 (by decide))
    (by simp)

/-- C6.  A descriptor whose value is a class implementing the managed type
(and which, being a class, is itself no instance of it) resolves to a
single freshly constructed instance, built by `_instantiate_plugin_type`,
i.e. by calling the class with the descriptor as its sole construction
argument. -/
theorem c6_plugin_type_is_instantiated
    (cfg : ManagerCfg) (env : Nat → Except LoadErr Value) (fuel : Nat)
    (c : PluginClass) (ep : EntryPoint)
    (hT : c.caps.contains cfg.managedType = true)
    (hf : 0 < fuel) :
    Value.isinstanceOf cfg.managedType (.cls c) = false ∧
    resolvePlugins cfg env fuel (.cls c) ep =
      .ok [.inst (instantiatePluginType c ep)] := by
  obtain ⟨n, rfl⟩ : ∃ n, fuel = n + 1 :=
    ⟨fuel - 1, (Nat.succ_pred_eq_of_pos hf).symm⟩
  have hmem : cfg.managedType ∈ c.caps := by simpa using hT
  exact ⟨rfl, by simp [resolvePlugins, hmem]⟩

/-- Witness for C6 at the concrete plugin class `cT` and descriptor "a". -/
theorem c6_witness :
    Value.isinstanceOf cfg0.managedType (.cls cT) = false ∧
    resolvePlugins cfg0 srcW.call 1 (.cls cT) epA =
      .ok [.inst (instantiatePluginType cT epA)] :=
  c6_plugin_type_is_instantiated cfg0 srcW.call 1 cT epA (by decide) (by decide)


/-- Predicate for the amended C2: every element of a collection value
already satisfies the capability check; non-collection values impose
nothing. -/
def collElemsSatisfy (cap : String) : Value → Prop
  | .coll es => ∀ v ∈ es, Value.isinstanceOf cap v = true
  | _ => True

/-- Helper: when every collection handed to the resolver (the initial
value and every value a callable returns) holds only capability-satisfying
elements, resolution produces only capability-satisfying elements. -/
theorem resolvePlugins_capability (cfg : ManagerCfg)
    (env : Nat → Except LoadErr Value)
    (hcall : ∀ i w, env i = .ok w → collElemsSatisfy cfg.managedType w) :
    ∀ fuel v ep l, collElemsSatisfy cfg.managedType v →
      resolvePlugins cfg env fuel v ep = .ok l →
      ∀ x ∈ l, Value.isinstanceOf cfg.managedType x = true := by
  intro fuel
  induction fuel with
  | zero => intro v ep l _ h; simp [resolvePlugins] at h
  | succ k ih =>
    intro v ep l hv h
    cases v with
    | inst p =>
      cases hc : p.caps.contains cfg.managedType with
      | true =>
        simp only [resolvePlugins, hc, if_true] at h
        cases h
        intro x hx
        rw [List.mem_singleton] at hx
        subst hx
        simpa [Value.isinstanceOf] using hc
      | false =>
        have hc2 : cfg.managedType ∉ p.caps := by simpa using hc
        simp [resolvePlugins, hc2] at h
    | cls c =>
      cases hc : c.caps.contains cfg.managedType with
      | true =>
        simp only [resolvePlugins, hc, if_true] at h
        cases h
        intro x hx
        rw [List.mem_singleton] at hx
        subst hx
        simpa [Value.isinstanceOf, instantiatePluginType] using hc
      | false =>
        have hc2 : cfg.managedType ∉ c.caps := by simpa using hc
        simp [resolvePlugins, hc2] at h
    | callable i =>
      cases he : env i with
      | error e => simp [resolvePlugins, he] at h
      | ok w =>
        simp only [resolvePlugins, he] at h
        exact ih w ep l (hcall i w he) h
    | coll es =>
      simp only [resolvePlugins] at h
      cases h
      exact hv
    | other => simp [resolvePlugins] at h

/-- Helper: the load loop preserves the conditional capability invariant
across a whole pass. -/
theorem loadLoop_capability (cfg : ManagerCfg) (src : EPSource)
    (recLimit : Nat)
    (hload : ∀ ep v, src.load ep = .ok v → collElemsSatisfy cfg.managedType v)
    (hcall : ∀ i w, src.call i = .ok w → collElemsSatisfy cfg.managedType w) :
    ∀ eps broken acc st,
      (∀ x ∈ acc, Value.isinstanceOf cfg.managedType x = true) →
      loadLoop cfg src recLimit eps broken acc = .ok st →
      ∀ x ∈ st.loaded, Value.isinstanceOf cfg.managedType x = true := by
  intro eps
  induction eps with
  | nil =>
    intro broken acc st hacc h
    simp only [loadLoop] at h
    cases h
    exact hacc
  | cons ep rest ih =>
    intro broken acc st hacc h
    cases hl : src.load ep with
    | error e => simp [loadLoop, hl] at h
    | ok v =>
      cases hr : resolvePlugins cfg src.call recLimit v ep with
      | error e => simp [loadLoop, hl, hr] at h
      | ok ps =>
        simp only [loadLoop, hl, hr] at h
        refine ih broken (acc ++ ps) st ?_ h
        intro x hx
        rcases List.mem_append.mp hx with hx2 | hx2
        · exact hacc x hx2
        · exact resolvePlugins_capability cfg src.call hcall recLimit v ep ps
            (hload ep v hl) hr x hx2

/-- C2 counterexample: a descriptor loading the list `[42]` — a collection
holding a bare non-plugin value.  The pass completes and the cached plugin
list holds a value failing the capability check: the collection branch
contributes elements verbatim, with no check, so the claimed unconditional
invariant is false. -/
theorem c2_counterexample :
    loadPlugins cfg0 src2 10 =
      .ok { broken := [], loaded := [Value.other], needsLoading := false } ∧
    Value.isinstanceOf cfg0.managedType Value.other = false :=
  ⟨rfl, rfl⟩

/-- C2 as amended.  The instance, type and invocable branches contribute
only capability-satisfying elements; the collection branch contributes its
elements verbatim and unchecked, so the invariant holds exactly under the
contract that every collection supplied by a descriptor (or returned by an
invocable) already holds only elements satisfying the managed type. -/
theorem c2_capability_invariant_conditional
    (cfg : ManagerCfg) (src : EPSource) (recLimit : Nat) (st : PMState)
    (hload : ∀ ep v, src.load ep = .ok v → collElemsSatisfy cfg.managedType v)
    (hcall : ∀ i w, src.call i = .ok w → collElemsSatisfy cfg.managedType w)
    (h : loadPlugins cfg src recLimit = .ok st) :
    ∀ x ∈ st.loaded, Value.isinstanceOf cfg.managedType x = true :=
  loadLoop_capability cfg src recLimit hload hcall src.eps [] [] st
    (by intro x hx; cases hx) h

/-- Witness for the amended C2 at a concrete well-behaved source. -/
theorem c2_witness :
    Value.isinstanceOf cfg0.managedType (Value.inst pA) = true :=
  c2_capability_invariant_conditional cfg0 srcW 10
    { broken := [], loaded := [Value.inst pA], needsLoading := false }
    (by intro ep v h; simp only [srcW] at h; cases h; trivial)
    (by intro i w h; simp only [srcW] at h; cases h; trivial)
    rfl (Value.inst pA) (by simp)

/-- Helper: when every cached value exposes a `plugin_name` and none
equals the wanted name, the scan completes and finds nothing. -/
theorem scanPlugins_none (n : String) :
    ∀ l names, pluginNames l = .ok names →
      (∀ v ∈ l, v.pluginName ≠ some n) →
      scanPlugins n l = .ok none := by
  intro l
  induction l with
  | nil => intro names _ _; rfl
  | cons v rest ih =>
    intro names hnames hne
    cases hv : v.pluginName with
    | none => simp [pluginNames, hv] at hnames
    | some m =>
      have hm : ¬ (m = n) := by
        intro e
        exact hne v (by simp) (by rw [hv, e])
      cases hrest : pluginNames rest with
      | error e => simp [pluginNames, hv, hrest] at hnames
      | ok ns =>
        simp only [scanPlugins, hv]
        rw [if_neg hm]
        exact ih ns hrest (fun w hw => hne w (List.mem_cons_of_mem v hw))

/-- Helper: when every cached value exposes a `plugin_name`, the scan
returns a first value matching the wanted name when one exists. -/
theorem scanPlugins_found (n : String) :
    ∀ l names, pluginNames l = .ok names →
      (∃ v ∈ l, v.pluginName = some n) →
      ∃ v, scanPlugins n l = .ok (some v) ∧ v ∈ l ∧ v.pluginName = some n := by
  intro l
  induction l with
  | nil => intro names _ hex; rcases hex with ⟨v, hv, _⟩; cases hv
  | cons v rest ih =>
    intro names hnames hex
    cases hv : v.pluginName with
    | none => simp [pluginNames, hv] at hnames
    | some m =>
      by_cases hmn : m = n
      · refine ⟨v, ?_, by simp, by rw [hv, hmn]⟩
        simp only [scanPlugins, hv]
        rw [if_pos hmn]
      · cases hrest : pluginNames rest with
        | error e => simp [pluginNames, hv, hrest] at hnames
        | ok ns =>
          have hex2 : ∃ w ∈ rest, w.pluginName = some n := by
            rcases hex with ⟨w, hw, hwn⟩
            rcases List.mem_cons.mp hw with rfl | hw2
            · rw [hv] at hwn
              exact absurd (Option.some.inj hwn) hmn
            · exact ⟨w, hw2, hwn⟩
          rcases ih ns hrest hex2 with ⟨w, hscan, hw, hwn⟩
          refine ⟨w, ?_, List.mem_cons_of_mem v hw, hwn⟩
          simp only [scanPlugins, hv]
          rw [if_neg hmn]
          exact hscan

/-- C7.  On a loaded manager whose cached values all expose a plugin name:
`get_plugin(n)` returns a cached plugin whose `plugin_name()` equals `n`
exactly when one exists, and otherwise raises the not-found error whose
payload carries every known plugin name and every `(descriptor, error)`
pair of the broken list. -/
theorem c7_get_plugin_match_or_diagnostic
    (cfg : ManagerCfg) (src : EPSource) (recLimit : Nat) (st : PMState)
    (n : String) (names : List String)
    (hld : st.needsLoading = false)
    (hnames : pluginNames st.loaded = .ok names) :
    ((∃ v ∈ st.loaded, v.pluginName = some n) →
      ∃ v, getPlugin cfg src recLimit st n = .ok (st, v) ∧
        v ∈ st.loaded ∧ v.pluginName = some n) ∧
    ((∀ v ∈ st.loaded, v.pluginName ≠ some n) →
      getPlugin cfg src recLimit st n = .error (.notFound names st.broken)) := by
  have hget : getPlugins cfg src recLimit st false = .ok (st, st.loaded) := by
    simp [getPlugins, hld]
  constructor
  · intro hex
    rcases scanPlugins_found n st.loaded names hnames hex with ⟨v, hscan, hv, hvn⟩
    refine ⟨v, ?_, hv, hvn⟩
    simp only [getPlugin, hget, hscan]
  · intro hne
    have hscan := scanPlugins_none n st.loaded names hnames hne
    simp only [getPlugin, hget, hscan, hnames]

/-- Witness for C7: a lookup that matches nothing on a loaded manager with
one cached plugin named "a" and one broken pair raises the diagnostic
error carrying both. -/
theorem c7_witness :
    getPlugin cfg0 srcW 10 st7 "q" =
      .error (.notFound ["a"] [(epB, .custom "x")]) :=
  (c7_get_plugin_match_or_diagnostic cfg0 srcW 10 st7 "q" ["a"] rfl rfl).2
    (by
      intro v hv
      have hl : st7.loaded = [Value.inst pA] := rfl
      rw [hl, List.mem_singleton] at hv
      subst hv
      decide)

/-- Helper: a completed load pass always leaves `_needs_loading = False`. -/
theorem loadLoop_clears_flag (cfg : ManagerCfg) (src : EPSource)
    (recLimit : Nat) :
    ∀ eps broken acc st,
      loadLoop cfg src recLimit eps broken acc = .ok st →
      st.needsLoading = false := by
  intro eps
  induction eps with
  | nil => intro broken acc st h; simp only [loadLoop] at h; cases h; rfl
  | cons ep rest ih =>
    intro broken acc st h
    cases hl : src.load ep with
    | error e => simp [loadLoop, hl] at h
    | ok v =>
      cases hr : resolvePlugins cfg src.call recLimit v ep with
      | error e => simp [loadLoop, hl, hr] at h
      | ok ps =>
        simp only [loadLoop, hl, hr] at h
        exact ih broken (acc ++ ps) st h

/-- C8.  `get_plugins(force_reload)` runs a load pass exactly when forced
or unloaded: forced calls always run `_load_plugins`; unloaded calls run
it too; a loaded, unforced call returns the cached state and list
unchanged, independently of the entry-point source (no pass runs).  A
completed pass clears the flag, so two successive `get_plugins(false)`
calls after it perform no further pass and return equal results. -/
theorem c8_get_plugins_caching
    (cfg : ManagerCfg) (src : EPSource) (recLimit : Nat) (st st2 : PMState) :
    (getPlugins cfg src recLimit st true =
      match loadPlugins cfg src recLimit with
      | .error e => .error e
      | .ok s => .ok (s, s.loaded)) ∧
    (st.needsLoading = true →
      getPlugins cfg src recLimit st false =
        match loadPlugins cfg src recLimit with
        | .error e => .error e
        | .ok s => .ok (s, s.loaded)) ∧
    (st.needsLoading = false →
      ∀ srcB : EPSource,
        getPlugins cfg srcB recLimit st false = .ok (st, st.loaded)) ∧
    (loadPlugins cfg src recLimit = .ok st2 →
      st2.needsLoading = false ∧
      ∀ srcB : EPSource,
        getPlugins cfg srcB recLimit st2 false = .ok (st2, st2.loaded)) := by
  refine ⟨?_, ?_, ?_, ?_⟩
  · simp [getPlugins]
  · intro h; simp [getPlugins, h]
  · intro h srcB; simp [getPlugins, h]
  · intro h
    have hf := loadLoop_clears_flag cfg src recLimit src.eps [] [] st2 h
    exact ⟨hf, fun srcB => by simp [getPlugins, hf]⟩

/-- Witness for C8: after the completed pass of a well-behaved source, a
further unforced call returns the cached state unchanged even against a
source whose descriptors would all fail — no load pass runs. -/
theorem c8_witness :
    getPlugins cfg0 src1 10
        { broken := [], loaded := [Value.inst pA], needsLoading := false }
        false =
      .ok ({ broken := [], loaded := [Value.inst pA], needsLoading := false },
        [Value.inst pA]) :=
  ((c8_get_plugins_caching cfg0 srcW 10 initState
      { broken := [], loaded := [Value.inst pA], needsLoading := false }).2.2.2
    rfl).2 src1

/-- C9.  Every engine is added to the process-wide registry exactly once,
at construction, while still unloaded; re-registering the same engine does
not duplicate it; the snapshot returned by `get_plugin_managers` is the
membership at call time, and after constructing two engines from an empty
registry it is exactly the two of them. -/
theorem c9_registry_once_idempotent_snapshot
    (reg : Registry) (m m1 m2 : Nat) :
    (pmInit reg m).1 = reg.register m ∧
    (pmInit reg m).2.needsLoading = true ∧
    (reg.register m).register m = reg.register m ∧
    Registry.getPluginManagers (reg.register m) = insert m reg.managers ∧
    (pmInit (pmInit { managers := ∅ } m1).1 m2).1.getPluginManagers = {m1, m2} := by
  refine ⟨rfl, rfl, ?_, rfl, ?_⟩
  · show Registry.mk (insert m (insert m reg.managers)) =
      Registry.mk (insert m reg.managers)
    rw [Finset.insert_idem]
  · show insert m2 (insert m1 (∅ : Finset Nat)) = {m1, m2}
    rw [LawfulSingleton.insert_emptyc_eq]
    exact Finset.pair_comm m2 m1

/-- Helper: the scan returns the first name match, never reaching later
elements. -/
theorem scanPlugins_first (n : String) (p : Plugin) (hname : p.name = n) :
    ∀ l1 l2, (∀ v ∈ l1, ∃ m, v.pluginName = some m ∧ m ≠ n) →
      scanPlugins n (l1 ++ Value.inst p :: l2) = .ok (some (Value.inst p)) := by
  intro l1
  induction l1 with
  | nil =>
    intro l2 _
    simp only [List.nil_append, scanPlugins, Value.pluginName]
    rw [if_pos hname]
  | cons v rest ih =>
    intro l2 hb
    rcases hb v (by simp) with ⟨m, hm, hmn⟩
    simp only [List.cons_append, scanPlugins, hm]
    rw [if_neg hmn]
    exact ih l2 (fun w hw => hb w (List.mem_cons_of_mem v hw))

/-- C10.  When several cached plugins share a `plugin_name()`,
`get_plugin` returns the one occurring earliest in cached-list order: on a
loaded manager whose cache is `l1 ++ p :: l2` with `p` named `n` and every
value of `l1` named differently, the linear scan stops at `p`; same-named
entries in `l2` are never returned. -/
theorem c10_first_match_wins
    (cfg : ManagerCfg) (src : EPSource) (recLimit : Nat) (st : PMState)
    (n : String) (p : Plugin) (l1 l2 : List Value)
    (hld : st.needsLoading = false)
    (hsplit : st.loaded = l1 ++ Value.inst p :: l2)
    (hname : p.name = n)
    (hbefore : ∀ v ∈ l1, ∃ m, v.pluginName = some m ∧ m ≠ n) :
    getPlugin cfg src recLimit st n = .ok (st, Value.inst p) := by
  have hget : getPlugins cfg src recLimit st false = .ok (st, st.loaded) := by
    simp [getPlugins, hld]
  have hscan := scanPlugins_first n p hname l1 l2 hbefore
  simp only [getPlugin, hget, hsplit, hscan]

/-- Witness for C10: with cache `[pB, pA, pA2]` where `pA` and `pA2` are
distinct plugins both named "a", `get_plugin("a")` returns `pA`, the
earlier one. -/
theorem c10_witness :
    getPlugin cfg0 srcW 10 st10 "a" = .ok (st10, Value.inst pA) ∧ pA ≠ pA2 :=
  ⟨c10_first_match_wins cfg0 srcW 10 st10 "a" pA [Value.inst pB] [Value.inst pA2]
      rfl rfl rfl
      (by
        intro v hv
        rw [List.mem_singleton] at hv
        subst hv
        exact ⟨"b", rfl, by decide⟩),
    by decide⟩

end PM
